import Mathlib

/-!
Verification of the unified resource storage-and-indexing server
(pkg/storage/unified/resource/index_server.go and pkg/storage/unified/sql/server.go),
as a shallow embedding in Lean 4.

Go conventions used by the embedding:
* a Go `(T, error)` return is a Lean pair whose second component is `Option Err`
  (`none` = nil error);
* Go pointers that may be nil are `Option`;
* methods that mutate their receiver take the receiver state and return the
  updated state;
* repository code that is not among the shown source files (the concrete
  `Index` implementation, the SQL `Backend`, the `getResource` decoder) is
  either a parameter of the embedding or a definition whose doc comment starts
  with `Modelled from the spec:`.
-/

namespace Grafana

/-- Go `error` values, modelled by their message. -/
abbrev Err := String

/-- Opaque `[]byte` payloads. -/
abbrev Bytes := List Nat

/-- Opaque handle standing for a `*server` (the resource server façade). -/
structure Server where
  sid : Nat
deriving DecidableEq

/-- ResourceKey: identity tuple {group, resource, namespace, name}. -/
structure ResourceKey where
  Group : String
  Resource : String
  Namespace : String
  Name : String
deriving DecidableEq

/-- ResourceWrapper: {resourceVersion, opaque value}. -/
structure ResourceWrapper where
  ResourceVersion : Int
  Value : Bytes
deriving DecidableEq

/-- The metadata of a decoded resource, as used by the watch-to-index bridge. -/
structure ResourceMetadata where
  Namespace : String
  Name : String
deriving DecidableEq

/-- A decoded Resource: {apiVersion, kind, metadata}. -/
structure Resource where
  ApiVersion : String
  Kind : String
  Metadata : ResourceMetadata
deriving DecidableEq

/-- The `Resource` field of a WatchEvent: carries a version and the raw value. -/
structure EventResource where
  Version : Int
  Value : Bytes
deriving DecidableEq

/-- WatchEvent as consumed by the bridge (only its `Resource` field is read). -/
structure WatchEvent where
  Resource : EventResource
deriving DecidableEq

/-- IndexRequest: both fields are nilable pointers in Go. -/
structure IndexRequest where
  Key : Option ResourceKey
  Value : Option ResourceWrapper
deriving DecidableEq

/-- IndexResponse: the index server never populates one (it always returns nil). -/
structure IndexResponse where
deriving DecidableEq

/-- SearchRequest: the query payload (its fields are never inspected by the code). -/
structure SearchRequest where
  Query : String
deriving DecidableEq

/-- IndexDocument: the Index's working set entry {key, version, value}. -/
structure IndexDocument where
  key : ResourceKey
  version : Int
  value : Bytes
deriving DecidableEq

/-- SearchResponse: a list of matching documents; `&SearchResponse{}` is `⟨[]⟩`. -/
structure SearchResponse where
  Items : List IndexDocument
deriving DecidableEq

/-- Data (index_server.go lines 127-130): {Key *ResourceKey, Value *ResourceWrapper}. -/
structure Data where
  Key : Option ResourceKey
  Value : Option ResourceWrapper
deriving DecidableEq

/-- Modelled from the spec: the Index lifecycle `Uninitialized -> Building -> Ready`
(§4.3), plus the `Degraded` state a failed watch loop should lead to. -/
inductive IndexPhase where
  | Uninitialized
  | Building
  | Ready
  | Degraded
deriving DecidableEq

/-- Opts (passed as `Opts{}` at index_server.go line 32; its fields are unused there). -/
structure Opts where
deriving DecidableEq

/-- Modelled from the spec: the Index state — a server reference, a lifecycle
phase, and the document set (at most one document per ResourceKey, §3). The
concrete `Index` implementation is not among the shown source files. -/
structure Index where
  server : Option Server
  phase : IndexPhase
  docs : List IndexDocument
deriving DecidableEq

/-- Go `strings.Split(s, sep)` for a one-character separator, on the character
list: splits around every occurrence of `sep`; the empty input yields `[[]]`
(Go returns a one-element slice holding the empty string). -/
def splitChars (sep : Char) : List Char → List (List Char)
  | [] => [[]]
  | c :: cs =>
    if c = sep then [] :: splitChars sep cs
    else
      match splitChars sep cs with
      | [] => [[c]]
      | g :: gs => (c :: g) :: gs

/-- Go `strings.Split` on strings, via `splitChars`. -/
def goSplit (s : String) (sep : Char) : List String :=
  (splitChars sep s.toList).map List.asString

/-- Embeds getGroup (index_server.go lines 132-138):
`v := strings.Split(r.ApiVersion, "/"); if len(v) > 0 { return v[0] }; return ""`. -/
def getGroup (r : Resource) : String :=
  let v := goSplit r.ApiVersion '/'
  if h : 0 < v.length then v.get ⟨0, h⟩ else ""

/-- indexServer (index_server.go lines 11-15): holds the resource server
reference `s`, the current `index`, and the watch-bridge stream `ws`
(modelled by the flag `hasWS`). -/
structure indexServer where
  s : Option Server
  index : Option Index
  hasWS : Bool
deriving DecidableEq

/-- Embeds NewResourceIndexServer (index_server.go lines 73-75):
`return &indexServer{}` — every field at its zero value. -/
def NewResourceIndexServer : indexServer :=
  { s := none, index := none, hasWS := false }

/-- Modelled from the spec: `NewIndex(is.s, Opts{})` constructs a fresh Index
holding the given server reference, Uninitialized, with no documents
(§4.3: `Building` is entered only on the explicit initialization call).
The NewIndex implementation is not among the shown source files. -/
def NewIndex (s : Option Server) (_o : Opts) : Index :=
  { server := s, phase := IndexPhase.Uninitialized, docs := [] }

/-- Outcomes of the concrete Index operations invoked by the index server.
`Index.Init` and the per-document `Index.Index` are implemented outside the
shown source files, so the embedding takes their behaviour as a parameter:
each returns the post-call index state and the Go error (`none` = success). -/
structure IndexOps where
  initRes : Index → Index × Option Err
  upsertRes : Index → Data → Index × Option Err

/-- Calling `is.index.Index(...)` while `is.index` is nil dereferences a nil
`*Index` in Go; the embedding models that panic as this distinguished error. -/
def nilIndexPanic : Err := "panic: nil *Index receiver"

/-- Embeds indexServer.Index (index_server.go lines 30-45):
`if req.Key == nil { is.index = NewIndex(is.s, Opts{}); err := is.index.Init(ctx); ... }`
else `err := is.index.Index(ctx, &Data{Key: req.Key, Value: req.Value})`.
Returns the updated server state, the response (always nil in the source),
and the error. -/
def indexServer.Index (ops : IndexOps) (is : indexServer) (req : IndexRequest) :
    indexServer × Option IndexResponse × Option Err :=
  match req.Key with
  | none =>
    let r := ops.initRes (NewIndex is.s {})
    ({ is with index := some r.1 }, none, r.2)
  | some _ =>
    match is.index with
    | none => (is, none, some nilIndexPanic)
    | some idx =>
      let r := ops.upsertRes idx { Key := req.Key, Value := req.Value }
      ({ is with index := some r.1 }, none, r.2)

/-- Embeds indexServer.Search (index_server.go lines 17-20):
`res := &SearchResponse{}; return res, nil` — unconditionally. -/
def indexServer.Search (_is : indexServer) (_req : SearchRequest) :
    SearchResponse × Option Err :=
  ({ Items := [] }, none)

/-- ListOptions as used by the hardcoded watch request (its Key pointer). -/
structure ListOptions where
  Key : Option ResourceKey
deriving DecidableEq

/-- WatchRequest as built by indexServer.Init. -/
structure WatchRequest where
  Options : Option ListOptions
deriving DecidableEq

/-- The hardcoded watch scope of indexServer.Init (index_server.go lines 57-64). -/
def playlistWatchKey : ResourceKey :=
  { Group := "playlist.grafana.app"
    Resource := "playlists"
    Namespace := ""
    Name := "" }

def playlistWatchRequest : WatchRequest :=
  { Options := some ({ Key := some playlistWatchKey } : ListOptions) }

/-- Embeds indexServer.Init (index_server.go lines 50-71): sets `is.s = rs` and
`is.ws`, builds the hardcoded WatchRequest, then launches
`go func() { err = rs.Watch(wr, is.ws) }()` and immediately `return err`.
`rs.Watch` is a long-lived streaming call that has not returned when Init
returns, so the local `err` still holds its zero value (nil) at the return;
the error `rs.Watch` eventually produces is supplied here as `watchResult`
and never reaches Init's return value. -/
def indexServer.Init (is : indexServer) (rs : Server) (_watchResult : Option Err) :
    indexServer × Option Err :=
  let _wr := playlistWatchRequest
  ({ is with s := some rs, hasWS := true }, none)

/-- The ResourceKey built by the watch-to-index bridge for a decoded resource
(index_server.go lines 93-98). -/
def buildKey (r : Resource) : ResourceKey :=
  { Group := getGroup r
    Resource := r.Kind
    Namespace := r.Metadata.Namespace
    Name := r.Metadata.Name }

/-- Embeds indexWatchServer.Send (index_server.go lines 87-110). `dec` stands
for the `getResource` decoder (implemented outside the shown files). On a
decode error the error is returned; otherwise the key and wrapper are built
and fed to `f.is.Index`, whose error is returned. -/
def indexWatchServer.Send (dec : Bytes → Except Err Resource) (ops : IndexOps)
    (f : indexServer) (we : WatchEvent) : indexServer × Option Err :=
  match dec we.Resource.Value with
  | Except.error e => (f, some e)
  | Except.ok r =>
    let key := buildKey r
    let value : ResourceWrapper :=
      { ResourceVersion := we.Resource.Version, Value := we.Resource.Value }
    let res := indexServer.Index ops f { Key := some key, Value := some value }
    (res.1, res.2.2)

/-- The document the Index currently stores for a key, if any. -/
def Index.lookup (idx : Index) (k : ResourceKey) : Option IndexDocument :=
  idx.docs.find? (fun d => d.key == k)

/-- Modelled from the spec: `Index.Index(key, value) -> error` (§4.3) — an
idempotent upsert into the document set, deduplicated by version: an incoming
version less than or equal to the currently stored version for that key is a
no-op (§3 invariant); otherwise the stored document is replaced (or created on
first sight). The concrete Index implementation is not among the shown source
files. -/
def Index.Index (idx : Index) (k : ResourceKey) (v : ResourceWrapper) : Index :=
  match idx.docs.find? (fun d => d.key == k) with
  | some d =>
    if v.ResourceVersion ≤ d.version then idx
    else
      { idx with docs := idx.docs.map (fun d2 =>
          if d2.key == k then { key := k, version := v.ResourceVersion, value := v.Value }
          else d2) }
  | none =>
    { idx with docs :=
        idx.docs ++ [{ key := k, version := v.ResourceVersion, value := v.Value }] }

/-- Modelled from the spec: error taxonomy of the Backend write path (§7). -/
inductive WriteError where
  | Conflict
  | Storage
deriving DecidableEq

/-- Modelled from the spec: the Backend's durable state — per-key version
history, oldest to newest (§2, §4.1). The SQL backend implementation is not
among the shown source files. -/
structure Backend where
  hist : List (ResourceKey × List ResourceWrapper)
deriving DecidableEq

/-- The retained version history for a key, oldest to newest. -/
def Backend.history (b : Backend) (k : ResourceKey) : List ResourceWrapper :=
  match b.hist.find? (fun p => p.1 == k) with
  | some p => p.2
  | none => []

/-- The latest stored version for a key (0 when the key has no versions). -/
def Backend.latestVersion (b : Backend) (k : ResourceKey) : Int :=
  match (b.history k).getLast? with
  | some w => w.ResourceVersion
  | none => 0

/-- Replaces the history of one key (helper for `Backend.Write`). -/
def Backend.setHistory (b : Backend) (k : ResourceKey) (h : List ResourceWrapper) : Backend :=
  match b.hist.find? (fun p => p.1 == k) with
  | some _ =>
    { hist := b.hist.map (fun p => if p.1 == k then (k, h) else p) }
  | none =>
    { hist := b.hist ++ [(k, h)] }

/-- Modelled from the spec: `Write(key, value, expectedVersion?)` (§4.1, §6) —
if an optimistic-concurrency precondition is supplied and does not match the
latest stored version, the write fails with ConflictError and the stored state
is unchanged; otherwise a strictly larger version is assigned, and the new
wrapper is appended to the key's history atomically. -/
def Backend.Write (b : Backend) (k : ResourceKey) (value : Bytes)
    (expectedVersion : Option Int) : Backend × Except WriteError Int :=
  match expectedVersion with
  | some ev =>
    if ev = b.latestVersion k then
      let nv := b.latestVersion k + 1
      (b.setHistory k (b.history k ++ [{ ResourceVersion := nv, Value := value }]),
       Except.ok nv)
    else
      (b, Except.error WriteError.Conflict)
  | none =>
    let nv := b.latestVersion k + 1
    (b.setHistory k (b.history k ++ [{ ResourceVersion := nv, Value := value }]),
     Except.ok nv)

/-- Handle standing for the resource DB produced by `dbimpl.ProvideResourceDB`. -/
structure ResourceDB where
  rid : Nat
deriving DecidableEq

/-- Handle standing for the SQL backend produced by `NewBackend`. -/
structure StoreBackend where
  bid : Nat
deriving DecidableEq

/-- ResourceServerOptions as populated by sql.NewResourceServer (server.go
lines 16-33): the store is used as Backend, Diagnostics and Lifecycle, and in
indexed mode the Index field is set. -/
structure ResourceServerOptions where
  Backend : Option StoreBackend
  Diagnostics : Option StoreBackend
  Lifecycle : Option StoreBackend
  Index : Option indexServer
deriving DecidableEq

/-- The external collaborators of sql.NewResourceServer (server.go): the DB
provider, the backend constructor, `resource.NewResourceServer`, the composed
server's `Index` method (all implemented outside the shown source files), and
the search feature flag. -/
structure SqlEnv where
  provideResourceDB : Except Err ResourceDB
  newBackend : ResourceDB → Except Err StoreBackend
  newServer : ResourceServerOptions → Except Err Server
  serverIndex : Server → IndexRequest → Option IndexResponse × Option Err
  searchEnabled : Bool

/-- The options sql.NewResourceServer fills in plain mode (server.go lines
16-30): the store serves as Backend, Diagnostics and Lifecycle. -/
def plainOpts (store : StoreBackend) : ResourceServerOptions :=
  { Backend := some store
    Diagnostics := some store
    Lifecycle := some store
    Index := none }

/-- The options in indexed mode: additionally
`opts.Index = resource.NewResourceIndexServer()` (server.go line 33). -/
def indexedOpts (store : StoreBackend) : ResourceServerOptions :=
  { plainOpts store with Index := some NewResourceIndexServer }

/-- Embeds sql.NewResourceServer (server.go lines 15-45): provide the DB,
build the backend, fill the options; when the search feature flag is enabled,
set the Index option, build the façade server, then call
`server.Index(ctx, &resource.IndexRequest{})` — an IndexRequest with nil Key —
and `return server, err`; in plain mode just build and return the server. -/
def sqlNewResourceServer (env : SqlEnv) : Option Server × Option Err :=
  match env.provideResourceDB with
  | Except.error e => (none, some e)
  | Except.ok eDB =>
    match env.newBackend eDB with
    | Except.error e => (none, some e)
    | Except.ok store =>
      if env.searchEnabled then
        match env.newServer (indexedOpts store) with
        | Except.error e => (none, some e)
        | Except.ok server =>
          let r := env.serverIndex server { Key := none, Value := none }
          (some server, r.2)
      else
        match env.newServer (plainOpts store) with
        | Except.error e => (none, some e)
        | Except.ok server => (some server, none)

/-- State update helper: the server after `is.index = idx` was assigned. -/
def withIndex (is : indexServer) (idx : Index) : indexServer :=
  { is with index := some idx }

/-- A decoder that fails on every payload (concrete instance for C2). -/
def decFail2 : Bytes → Except Err Resource := fun _ => Except.error "decode failed"

/-- Index operations that always succeed without changing the index. -/
def ops2 : IndexOps :=
  { initRes := fun i => (i, none), upsertRes := fun i _ => (i, none) }

def we2 : WatchEvent := ⟨⟨1, [7]⟩⟩

/-- Index operations whose initialization fails (concrete instance for C4). -/
def opsInitFail4 : IndexOps :=
  { initRes := fun i => (i, some "scan failed"), upsertRes := fun i _ => (i, none) }

/-- A concrete environment: DB, backend and façade construction succeed, and
the façade's Index method dispatches to the real indexServer.Index whose
initialization fails. -/
def env4 : SqlEnv :=
  { provideResourceDB := Except.ok ⟨1⟩
    newBackend := fun _ => Except.ok ⟨2⟩
    newServer := fun _ => Except.ok ⟨3⟩
    serverIndex := fun _ req =>
      ((indexServer.Index opsInitFail4 NewResourceIndexServer req).2.1,
       (indexServer.Index opsInitFail4 NewResourceIndexServer req).2.2)
    searchEnabled := true }

/-- Index operations backed by the spec-modelled upsert (instance for C5). -/
def ops5 : IndexOps :=
  { initRes := fun i => (⟨i.server, IndexPhase.Ready, i.docs⟩, none)
    upsertRes := fun i d =>
      match d.Key, d.Value with
      | some k, some v => (i.Index k v, none)
      | _, _ => (i, some "nil data") }

def key5 : ResourceKey := ⟨"g5", "r5", "ns5", "n5"⟩

def wrap5 : ResourceWrapper := ⟨5, [1, 2]⟩

def idx5 : Index := ⟨none, IndexPhase.Ready, []⟩

def srv5 : indexServer := ⟨none, some idx5, true⟩

def r6 : Resource := ⟨"playlist.grafana.app/v1", "Playlist", ⟨"default", "p1"⟩⟩

/-- A decoder that succeeds with the concrete playlist resource. -/
def dec6 : Bytes → Except Err Resource := fun _ => Except.ok r6

def ops6 : IndexOps :=
  { initRes := fun i => (i, none), upsertRes := fun i _ => (i, none) }

def we6 : WatchEvent := ⟨⟨1, [3]⟩⟩

def key7 : ResourceKey := ⟨"g7", "r7", "", "n7"⟩

def idx7 : Index := ⟨none, IndexPhase.Building, []⟩

def w07 : ResourceWrapper := ⟨1, [0]⟩

def w17 : ResourceWrapper := ⟨2, [9]⟩

def key8 : ResourceKey := ⟨"g8", "r8", "", "n8"⟩

def b8 : Backend := ⟨[(key8, [⟨3, [1]⟩])]⟩

/-- Index operations whose initialization fails, leaving the fresh index
uninitialized (concrete instance for C9). -/
def ops9 : IndexOps :=
  { initRes := fun i => (⟨i.server, IndexPhase.Uninitialized, i.docs⟩, some "init failed")
    upsertRes := fun i _ => (i, none) }

def old9 : Index := ⟨none, IndexPhase.Ready, [⟨⟨"g9", "r9", "", "n9"⟩, 1, [4]⟩]⟩

def srv9 : indexServer := ⟨some ⟨9⟩, some old9, true⟩

def r10 : Resource := ⟨"/v1", "K", ⟨"", ""⟩⟩

/-- The function splitChars always produces the run of characters before the first
separator as its first group. -/
theorem splitChars_eq_cons (sep : Char) (l : List Char) :
    ∃ gs, splitChars sep l = (l.takeWhile (fun c => c != sep)) :: gs := by
  induction l with
  | nil => exact ⟨[], rfl⟩
  | cons c cs ih =>
    obtain ⟨gs, hgs⟩ := ih
    by_cases hc : c = sep
    · refine ⟨splitChars sep cs, ?_⟩
      simp [splitChars, hc, List.takeWhile]
    · refine ⟨gs, ?_⟩
      simp only [splitChars, if_neg hc, hgs, List.takeWhile]
      have : (c != sep) = true := by simp [hc]
      simp [this]

/-- The function goSplit never returns the empty list. -/
theorem goSplit_length_pos (s : String) (sep : Char) :
    0 < (goSplit s sep).length := by
  obtain ⟨gs, hgs⟩ := splitChars_eq_cons sep s.toList
  simp only [String.toList] at hgs
  simp [goSplit, hgs]

/-- getGroup returns exactly the characters of apiVersion before the first '/'. -/
theorem getGroup_eq_takeWhile (r : Resource) :
    getGroup r = (r.ApiVersion.toList.takeWhile (fun c => c != '/')).asString := by
  obtain ⟨gs, hgs⟩ := splitChars_eq_cons '/' r.ApiVersion.toList
  simp only [String.toList] at hgs
  have hv : goSplit r.ApiVersion '/'
      = (r.ApiVersion.toList.takeWhile (fun c => c != '/')).asString :: gs.map List.asString := by
    simp [goSplit, hgs, String.toList]
  simp [getGroup, hv]

/-- The first segment of the split is exactly `getGroup`. -/
theorem goSplit_head_eq_getGroup (r : Resource) :
    (goSplit r.ApiVersion '/').head? = some (getGroup r) := by
  obtain ⟨gs, hgs⟩ := splitChars_eq_cons '/' r.ApiVersion.toList
  simp only [String.toList] at hgs
  have hv : goSplit r.ApiVersion '/'
      = (r.ApiVersion.toList.takeWhile (fun c => c != '/')).asString :: gs.map List.asString := by
    simp [goSplit, hgs, String.toList]
  rw [getGroup_eq_takeWhile, hv]
  rfl

/-- If apiVersion contains no '/', `getGroup` returns the whole string. -/
theorem getGroup_no_slash (r : Resource) (h : '/' ∉ r.ApiVersion.toList) :
    getGroup r = r.ApiVersion := by
  rw [getGroup_eq_takeWhile]
  have : r.ApiVersion.toList.takeWhile (fun c => c != '/') = r.ApiVersion.toList := by
    apply List.takeWhile_eq_self_iff.mpr
    intro c hc
    have : c ≠ '/' := fun he => h (he ▸ hc)
    simp [this]
  rw [this]
  rfl

/-- In a list whose elements with key `k` are all replaced by `nd` (itself
keyed by `k`), `find?` for key `k` returns `nd` whenever the original list had
a match. -/
theorem find?_map_replace (l : List IndexDocument) (k : ResourceKey)
    (nd : IndexDocument) (hnd : nd.key = k) (d0 : IndexDocument)
    (h : l.find? (fun d => d.key == k) = some d0) :
    (l.map (fun d2 => if d2.key == k then nd else d2)).find?
      (fun d => d.key == k) = some nd := by
  induction l with
  | nil => simp at h
  | cons a l ih =>
    by_cases ha : a.key = k
    · have hrepl : ((a :: l).map (fun d2 => if d2.key == k then nd else d2))
          = nd :: l.map (fun d2 => if d2.key == k then nd else d2) := by
        simp [ha]
      rw [hrepl, List.find?_cons_of_pos _ (by simp [hnd])]
    · have ha' : (a.key == k) = false := by simp [ha]
      have hrepl : ((a :: l).map (fun d2 => if d2.key == k then nd else d2))
          = a :: l.map (fun d2 => if d2.key == k then nd else d2) := by
        simp [ha']
        exact fun hk => absurd hk ha
      rw [List.find?_cons_of_neg _ (by simp [ha'])] at h
      rw [hrepl, List.find?_cons_of_neg _ (by simp [ha'])]
      exact ih h

/-- Evaluates find? over an appended singleton when the front list has no match. -/
theorem find?_append_singleton {α : Type} (l : List α) (p : α → Bool) (x : α)
    (h : l.find? p = none) :
    (l ++ [x]).find? p = if p x then some x else none := by
  induction l with
  | nil => by_cases hx : p x <;> simp [hx]
  | cons a l ih =>
    by_cases ha : p a
    · rw [List.find?_cons_of_pos _ ha] at h
      exact absurd h (by simp)
    · have ha' : p a = false := by simpa using ha
      rw [List.find?_cons_of_neg _ ha] at h
      rw [List.cons_append, List.find?_cons_of_neg _ ha]
      exact ih h

/-- After an upsert for key `k`, the Index stores a document for `k` whose
version is at least the incoming version. -/
theorem Index_find_after (idx : Index) (k : ResourceKey) (v : ResourceWrapper) :
    ∃ d, (idx.Index k v).docs.find? (fun d => d.key == k) = some d
      ∧ v.ResourceVersion ≤ d.version ∧ d.key = k := by
  unfold Index.Index
  cases hf : idx.docs.find? (fun d => d.key == k) with
  | some d =>
    have hdk : d.key = k := by
      have := List.find?_some hf
      simpa using this
    by_cases hle : v.ResourceVersion ≤ d.version
    · exact ⟨d, by simp [hle, hf], hle, hdk⟩
    · refine ⟨{ key := k, version := v.ResourceVersion, value := v.Value }, ?_, le_refl _, rfl⟩
      simp only [hle, if_false]
      exact find?_map_replace idx.docs k _ rfl d hf
  | none =>
    refine ⟨{ key := k, version := v.ResourceVersion, value := v.Value }, ?_, le_refl _, rfl⟩
    rw [find?_append_singleton _ _ _ hf]
    simp

/-- An incoming version ≤ the stored version for the key is a no-op. -/
theorem Index_noop (idx : Index) (k : ResourceKey) (v : ResourceWrapper)
    (d : IndexDocument) (hf : idx.docs.find? (fun d => d.key == k) = some d)
    (hle : v.ResourceVersion ≤ d.version) :
    idx.Index k v = idx := by
  unfold Index.Index
  rw [hf]
  simp [hle]

/-- The first group of a split is empty iff the input is empty or starts with
the separator. -/
theorem takeWhile_ne_sep_eq_nil (sep : Char) (l : List Char) :
    (l.takeWhile (fun c => c != sep) = []) ↔ (l = [] ∨ l.head? = some sep) := by
  cases l with
  | nil => simp
  | cons c cs =>
    by_cases hc : c = sep
    · subst hc
      simp [List.takeWhile_cons]
    · have hc' : ((fun c => c != sep) c) = true := by simp [hc]
      simp [List.takeWhile_cons_of_pos hc', hc]

/-- C1 (code bug): `indexServer.Search` returns an empty successful
SearchResponse with a nil error for every server state — in particular for a
server whose Index has not reached Ready (e.g. immediately after indexed-mode
construction) — and never an IndexNotReadyError or any other "not ready"
indication. -/
theorem Search_always_empty_success (is : indexServer) (req : SearchRequest) :
    indexServer.Search is req = ({ Items := [] }, none) := rfl

/-- C2 (code bug): the watch-to-index bridge does not contain ingestion
errors: when decoding the event's resource value fails, `Send` returns that
error to the stream driver (aborting delivery) with no state change, and when
the per-document Index upsert fails, `Send` returns that error as well. -/
theorem Send_propagates_ingestion_error (dec : Bytes → Except Err Resource)
    (ops : IndexOps) (f : indexServer) (we : WatchEvent) (e : Err) :
    (dec we.Resource.Value = Except.error e →
       indexWatchServer.Send dec ops f we = (f, some e))
  ∧ (∀ r : Resource, dec we.Resource.Value = Except.ok r →
       (indexServer.Index ops f
          { Key := some (buildKey r),
            Value := some { ResourceVersion := we.Resource.Version,
                            Value := we.Resource.Value } }).2.2 = some e →
       (indexWatchServer.Send dec ops f we).2 = some e) := by
  constructor
  · intro h
    simp [indexWatchServer.Send, h]
  · intro r hr hidx
    simp [indexWatchServer.Send, hr, hidx]

/-- C3 (code bug): whatever error `rs.Watch` eventually produces, Init returns
a nil error: the goroutine's assignment to the captured local happens only
after Init has already returned its zero value, so the watch error is not
observable in Init's result. -/
theorem Init_drops_watch_error (is : indexServer) (rs : Server) (e : Err) :
    indexServer.Init is rs (some e)
      = ({ is with s := some rs, hasWS := true }, none) := rfl

/-- C4: in indexed mode, when the DB provider, the backend and the façade
construction succeed, sql.NewResourceServer's outcome is the façade server
paired with exactly the error of the `server.Index` control call on the
request with an absent (nil) Key — performed before the constructor returns.
Hence a failure of that initialization step makes the constructor fail, and
its success makes the constructor return the façade successfully. -/
theorem NewResourceServer_indexed_init (env : SqlEnv) (eDB : ResourceDB)
    (store : StoreBackend) (server : Server)
    (hs : env.searchEnabled = true)
    (h1 : env.provideResourceDB = Except.ok eDB)
    (h2 : env.newBackend eDB = Except.ok store)
    (h3 : env.newServer (indexedOpts store) = Except.ok server) :
    sqlNewResourceServer env
      = (some server, (env.serverIndex server { Key := none, Value := none }).2) := by
  simp [sqlNewResourceServer, h1, h2, hs, h3]

/-- C5: dispatch of the Index control operation. Absent key: a fresh Index is
constructed from scratch and initialized, and the returned error is exactly
the initialization's error (nil iff it succeeded). Present key: exactly the
single document {req.Key, req.Value} is fed to the index's upsert, and the
returned error is exactly the upsert's error (nil iff it succeeded); the
response is nil in both cases. The present-key part assumes the server holds
an index (a nil index would be a nil-pointer panic in Go). -/
theorem Index_control_dispatch (ops : IndexOps) (is : indexServer)
    (req : IndexRequest) :
    (req.Key = none →
       indexServer.Index ops is req
         = (withIndex is (ops.initRes (NewIndex is.s {})).1, none,
            (ops.initRes (NewIndex is.s {})).2))
  ∧ (∀ k idx, req.Key = some k → is.index = some idx →
       indexServer.Index ops is req
         = (withIndex is (ops.upsertRes idx (Data.mk (some k) req.Value)).1, none,
            (ops.upsertRes idx (Data.mk (some k) req.Value)).2)) := by
  constructor
  · intro h
    simp [indexServer.Index, withIndex, h]
  · intro k idx hk hidx
    simp [indexServer.Index, withIndex, hk, hidx]

/-- C6: the group component of the ResourceKey built by the watch-to-index
bridge is the first segment of splitting the decoded resource's apiVersion on
'/' (the whole string when apiVersion has no '/'), and on a successful decode
`Send` feeds the index exactly the request built from that key. -/
theorem buildKey_group_first_segment (dec : Bytes → Except Err Resource)
    (ops : IndexOps) (f : indexServer) (we : WatchEvent) (r : Resource)
    (hr : dec we.Resource.Value = Except.ok r) :
    (indexWatchServer.Send dec ops f we
       = ((indexServer.Index ops f
            { Key := some (buildKey r),
              Value := some { ResourceVersion := we.Resource.Version,
                              Value := we.Resource.Value } }).1,
          (indexServer.Index ops f
            { Key := some (buildKey r),
              Value := some { ResourceVersion := we.Resource.Version,
                              Value := we.Resource.Value } }).2.2))
  ∧ (buildKey r).Group = getGroup r
  ∧ (goSplit r.ApiVersion '/').head? = some ((buildKey r).Group)
  ∧ ('/' ∉ r.ApiVersion.toList → (buildKey r).Group = r.ApiVersion) := by
  refine ⟨?_, rfl, goSplit_head_eq_getGroup r, getGroup_no_slash r⟩
  simp [indexWatchServer.Send, hr]

/-- C7: the monotonic-version discard law of the (spec-modelled) Index upsert:
feeding version v0 after v1 with v0 < v1 is a no-op (so with no prior document
for the key, the stored document stays at v1), and the upsert is idempotent. -/
theorem Index_monotonic_discard (idx : Index) (k : ResourceKey)
    (v0 v1 : ResourceWrapper)
    (hlt : v0.ResourceVersion < v1.ResourceVersion) :
    ((idx.Index k v1).Index k v0 = idx.Index k v1)
  ∧ (idx.docs.find? (fun d => d.key == k) = none →
       ((idx.Index k v1).Index k v0).lookup k
         = some { key := k, version := v1.ResourceVersion, value := v1.Value })
  ∧ (∀ (idx2 : Index) (v : ResourceWrapper),
       (idx2.Index k v).Index k v = idx2.Index k v) := by
  have main : ∀ (idx2 : Index) (w u : ResourceWrapper),
      u.ResourceVersion ≤ w.ResourceVersion →
      (idx2.Index k w).Index k u = idx2.Index k w := by
    intro idx2 w u hle
    obtain ⟨d, hd, hver, hkey⟩ := Index_find_after idx2 k w
    exact Index_noop _ k u d hd (le_trans hle hver)
  refine ⟨main idx v1 v0 (le_of_lt hlt), ?_, fun idx2 v => main idx2 v v (le_refl _)⟩
  intro hnone
  rw [main idx v1 v0 (le_of_lt hlt)]
  have h1 : idx.Index k v1
      = { idx with docs := idx.docs
            ++ [{ key := k, version := v1.ResourceVersion, value := v1.Value }] } := by
    unfold Index.Index
    rw [hnone]
  rw [h1]
  unfold Index.lookup
  rw [find?_append_singleton _ _ _ hnone]
  simp

/-- C8: a Write carrying a stale expectedVersion precondition fails with
ConflictError and leaves the (spec-modelled) Backend state completely
unchanged. -/
theorem Write_stale_conflict (b : Backend) (k : ResourceKey) (value : Bytes)
    (ev : Int) (h : ev ≠ b.latestVersion k) :
    b.Write k value (some ev) = (b, Except.error WriteError.Conflict) := by
  simp [Backend.Write, h]

/-- C9: re-initialization is not atomic on error: on an Index request with an
absent key, the server first replaces its index with a fresh one and only then
initializes it, so when the initialization fails the error is returned while
the server keeps the freshly constructed index; the previously held index is
already discarded — the outcome is independent of it. -/
theorem Index_reinit_not_atomic (ops : IndexOps) (is : indexServer)
    (req : IndexRequest) (e : Err)
    (hk : req.Key = none)
    (he : (ops.initRes (NewIndex is.s {})).2 = some e) :
    ((indexServer.Index ops is req).2.2 = some e)
  ∧ ((indexServer.Index ops is req).1.index
       = some (ops.initRes (NewIndex is.s {})).1)
  ∧ (∀ old : Index,
       indexServer.Index ops { is with index := some old } req
         = indexServer.Index ops { is with index := none } req) := by
  refine ⟨?_, ?_, ?_⟩
  · simp [indexServer.Index, hk, he]
  · simp [indexServer.Index, hk]
  · intro old
    cases is with
    | mk s idx ws => simp [indexServer.Index, hk]

/-- C10: getGroup is total and its fallback branch is unreachable: the split
always yields at least one segment; getGroup returns exactly the characters of
apiVersion before the first '/'; and the result is the empty string iff
apiVersion is empty or starts with '/'. -/
theorem getGroup_total_first_segment (r : Resource) :
    0 < (goSplit r.ApiVersion '/').length
  ∧ getGroup r = (r.ApiVersion.toList.takeWhile (fun c => c != '/')).asString
  ∧ (getGroup r = "" ↔ (r.ApiVersion = "" ∨ r.ApiVersion.toList.head? = some '/')) := by
  refine ⟨goSplit_length_pos _ _, getGroup_eq_takeWhile r, ?_⟩
  rw [getGroup_eq_takeWhile]
  rw [List.asString_eq]
  have hempty : (r.ApiVersion = "") ↔ (r.ApiVersion.toList = []) := by
    rw [String.ext_iff]
    constructor
    · intro h
      simpa [String.toList] using h
    · intro h
      simpa [String.toList] using h
  rw [hempty]
  have : ("" : String).toList = [] := rfl
  rw [this]
  exact takeWhile_ne_sep_eq_nil '/' r.ApiVersion.toList

theorem Send_propagates_ingestion_error_witness :
    indexWatchServer.Send decFail2 ops2 NewResourceIndexServer we2
      = (NewResourceIndexServer, some "decode failed") :=
  (Send_propagates_ingestion_error decFail2 ops2 NewResourceIndexServer we2
    "decode failed").1 rfl

theorem NewResourceServer_indexed_init_witness :
    sqlNewResourceServer env4 = (some ⟨3⟩, some "scan failed") :=
  NewResourceServer_indexed_init env4 ⟨1⟩ ⟨2⟩ ⟨3⟩ rfl rfl rfl rfl

theorem Index_control_dispatch_witness :
    (indexServer.Index ops5 NewResourceIndexServer ⟨none, none⟩
       = (withIndex NewResourceIndexServer ⟨none, IndexPhase.Ready, []⟩, none, none))
  ∧ (indexServer.Index ops5 srv5 ⟨some key5, some wrap5⟩
       = (withIndex srv5 ⟨none, IndexPhase.Ready, [⟨key5, 5, [1, 2]⟩]⟩, none, none)) :=
  ⟨(Index_control_dispatch ops5 NewResourceIndexServer ⟨none, none⟩).1 rfl,
   (Index_control_dispatch ops5 srv5 ⟨some key5, some wrap5⟩).2 key5 idx5 rfl rfl⟩

theorem buildKey_group_first_segment_witness :
    (goSplit "playlist.grafana.app/v1" '/').head? = some ((buildKey r6).Group)
  ∧ (buildKey r6).Group = "playlist.grafana.app" := by
  have h := buildKey_group_first_segment dec6 ops6 NewResourceIndexServer we6 r6 rfl
  exact ⟨h.2.2.1, by decide⟩

theorem Index_monotonic_discard_witness :
    ((idx7.Index key7 w17).Index key7 w07 = idx7.Index key7 w17)
  ∧ ((idx7.Index key7 w17).Index key7 w07).lookup key7 = some ⟨key7, 2, [9]⟩ := by
  have h := Index_monotonic_discard idx7 key7 w07 w17 (by decide)
  exact ⟨h.1, h.2.1 rfl⟩

theorem Write_stale_conflict_witness :
    b8.Write key8 [9] (some 2) = (b8, Except.error WriteError.Conflict) :=
  Write_stale_conflict b8 key8 [9] 2 (by decide)

theorem Index_reinit_not_atomic_witness :
    ((indexServer.Index ops9 srv9 ⟨none, none⟩).2.2 = some "init failed")
  ∧ ((indexServer.Index ops9 srv9 ⟨none, none⟩).1.index
       = some ⟨some ⟨9⟩, IndexPhase.Uninitialized, []⟩) := by
  have h := Index_reinit_not_atomic ops9 srv9 ⟨none, none⟩ "init failed" rfl rfl
  exact ⟨h.1, h.2.1⟩

theorem getGroup_total_first_segment_witness :
    0 < (goSplit "/v1" '/').length ∧ getGroup r10 = "" := by
  have h := getGroup_total_first_segment r10
  exact ⟨h.1, h.2.2.mpr (Or.inr (by decide))⟩

end Grafana
